import Mathlib

/-!
Shallow embedding of `hyprland-vibrance` (src/hyprland-vibrance/src/main.rs):
an event-driven engine that tracks compositor windows (top levels), the
focused window, and the displays it occupies, and applies a color-saturation
transform (CTM) to those displays when the focused window's title matches a
configured filter.

Embedding conventions:
- Wayland `ObjectId`s (top-level handles) and `WlOutput` display handles are
  opaque identities compared structurally in the source; both are modelled as
  `Nat`.
- `f64` saturation values and CTM coefficients are modelled as `ℚ`; none of
  the claims under study depend on floating-point rounding, only on which
  value is fed to the matrix computation and on exact identities such as
  `calc_ctm_matrix 1 = identity`.
- The Rust code mutates `AppState` through `&mut self` methods; each method
  becomes a pure function `AppState → ... → AppState`.
- The `init : Option<Box<InitAppState>>` field only matters during the
  startup round-trip (capability discovery), which none of the claims are
  about; the embedded `AppState` carries the two fields the running phase
  uses: `top_levels` and `focused_top_level_object_id`.
-/

/-- Embeds `TopLevelInfo` (main.rs:33-38): a window handle, an optional
title, and the ordered list of displays the window currently occupies. -/
structure TopLevelInfo where
  handle : Nat
  title : Option String
  current_outputs : List Nat
deriving DecidableEq, Repr

/-- Embeds `TopLevelInfo::new` (main.rs:41-47): fresh window, no title,
empty occupancy list. -/
def TopLevelInfo.new (handle : Nat) : TopLevelInfo :=
  ⟨handle, none, []⟩

/-- Embeds `TopLevelInfo::push_current_output` (main.rs:51-55): append the
display unless it is already present (`Vec::contains` then `push`). -/
def TopLevelInfo.push_current_output (w : TopLevelInfo) (handle : Nat) : TopLevelInfo :=
  if handle ∈ w.current_outputs then w
  else { w with current_outputs := w.current_outputs ++ [handle] }

/-- Embeds `Iterator::position`: index of the first element satisfying the
predicate, if any. -/
def position_of (p : α → Bool) : List α → Option Nat
  | [] => none
  | a :: as => if p a then some 0 else (position_of p as).map (· + 1)

/-- Embeds `Vec::remove(idx)`: drop the element at the given index. -/
def remove_at : List α → Nat → List α
  | [], _ => []
  | _ :: as, 0 => as
  | a :: as, n + 1 => a :: remove_at as n

/-- Modify the element at the given index in place (the effect of writing
through the `&mut` reference `self.top_levels[idx]`). -/
def modify_at (f : α → α) : List α → Nat → List α
  | [], _ => []
  | a :: as, 0 => f a :: as
  | a :: as, n + 1 => a :: modify_at f as n

/-- Embeds `TopLevelInfo::pop_current_output` (main.rs:56-60): find the first
index holding the display and remove it; no-op when absent. -/
def TopLevelInfo.pop_current_output (w : TopLevelInfo) (handle : Nat) : TopLevelInfo :=
  match position_of (fun e => e = handle) w.current_outputs with
  | some idx => { w with current_outputs := remove_at w.current_outputs idx }
  | none => w

/-- Embeds the running-phase fields of `AppState` (main.rs:71-76): the window
registry (`top_levels`) and the focus tracker
(`focused_top_level_object_id`). -/
structure AppState where
  top_levels : List TopLevelInfo
  focused_top_level_object_id : Option Nat
deriving DecidableEq, Repr

/-- Embeds `AppState::index_of_top_level_for_object_id` (main.rs:91-93). -/
def AppState.index_of_top_level_for_object_id (s : AppState) (id : Nat) : Option Nat :=
  position_of (fun e => e.handle = id) s.top_levels

/-- Embeds `AppState::focused_top_level` (main.rs:95-100): look the tracked
identity up in the registry; absent when nothing is tracked or the identity
matches no window. The Rust method borrows `self` immutably (`&self`), so it
cannot change the state. -/
def AppState.focused_top_level (s : AppState) : Option TopLevelInfo :=
  s.focused_top_level_object_id.bind fun focused_id =>
    (s.index_of_top_level_for_object_id focused_id).bind fun idx =>
      s.top_levels[idx]?

/-- Embeds `AppState::get_or_create_top_level` (main.rs:102-113) as a state
transformer: insert a fresh window at the end when the handle is unknown. -/
def AppState.get_or_create_top_level (s : AppState) (handle : Nat) : AppState :=
  if (s.index_of_top_level_for_object_id handle).isSome then s
  else { s with top_levels := s.top_levels ++ [TopLevelInfo.new handle] }

/-- Embeds `AppState::notify_top_level_focus_changed` (main.rs:115-125):
activation sets the tracked identity unconditionally; deactivation clears it
only when it currently equals the handle. -/
def AppState.notify_top_level_focus_changed (s : AppState) (changed_handle : Nat)
    (focused : Bool) : AppState :=
  if focused then { s with focused_top_level_object_id := some changed_handle }
  else if s.focused_top_level_object_id = some changed_handle then
    { s with focused_top_level_object_id := none }
  else s

/-- Embeds `AppState::notify_top_level_closed` (main.rs:127-134): when the
handle is registered, clear the focus tracker if it points at this handle,
then remove the window at its index. -/
def AppState.notify_top_level_closed (s : AppState) (handle : Nat) : AppState :=
  match s.index_of_top_level_for_object_id handle with
  | some idx =>
      let s' := if some handle = s.focused_top_level_object_id then
                  { s with focused_top_level_object_id := none }
                else s
      { s' with top_levels := remove_at s'.top_levels idx }
  | none => s

/-- The top-level notifications handled by the running-phase dispatch
(main.rs:229-313): the manager's `Toplevel` event and the five per-handle
events (`Title`, `OutputEnter`, `OutputLeave`, `State`, `Closed`). The
`State` event is reduced to the `focused` bit the handler extracts from it
(`state.contains(Activated)`). -/
inductive TLEvent where
  | newToplevel (handle : Nat)
  | title (handle : Nat) (text : String)
  | outputEnter (handle : Nat) (output : Nat)
  | outputLeave (handle : Nat) (output : Nat)
  | state (handle : Nat) (focused : Bool)
  | closed (handle : Nat)
deriving DecidableEq, Repr

/-- Apply a mutation through the `&mut TopLevelInfo` returned by
`get_or_create_top_level`: auto-vivify, then modify the window at the index
the handle now occupies. -/
def AppState.update_top_level (s : AppState) (handle : Nat)
    (f : TopLevelInfo → TopLevelInfo) : AppState :=
  let s' := s.get_or_create_top_level handle
  match s'.index_of_top_level_for_object_id handle with
  | some idx => { s' with top_levels := modify_at f s'.top_levels idx }
  | none => s'

/-- Embeds one step of the dispatch handlers (main.rs:229-313). Every
per-handle event first calls `get_or_create_top_level` (main.rs:270), then
performs its specific mutation. -/
def handle_event (s : AppState) : TLEvent → AppState
  | .newToplevel h => s.get_or_create_top_level h
  | .title h t => s.update_top_level h (fun w => { w with title := some t })
  | .outputEnter h o => s.update_top_level h (fun w => w.push_current_output o)
  | .outputLeave h o => s.update_top_level h (fun w => w.pop_current_output o)
  | .state h focused => (s.get_or_create_top_level h).notify_top_level_focus_changed h focused
  | .closed h => (s.get_or_create_top_level h).notify_top_level_closed h

/-- The fresh state the dispatch loop starts from (`AppState::default()`,
restricted to the running-phase fields): no windows, no focus. -/
def initial_app_state : AppState := ⟨[], none⟩

/-- Run a sequence of notifications from the fresh state. -/
def run_events (evs : List TLEvent) : AppState :=
  evs.foldl handle_event initial_app_state

/-- Embeds the local helper `contains_ref` of `diff_lists` (main.rs:346-354):
linear scan for an equal element. -/
def contains_ref [DecidableEq α] : List α → α → Bool
  | [], _ => false
  | e :: rest, needle => if e = needle then true else contains_ref rest needle

/-- Embeds `diff_lists` (main.rs:342-375): one pass over `old` pushing each
element into `unchanged` or `removed` according to membership in `new`, then
one pass over `new` pushing the elements absent from `old` into `added`. -/
def diff_lists [DecidableEq α] (old new : List α) : List α × List α × List α :=
  let ru := old.foldl
    (fun acc old_value =>
      if contains_ref new old_value then (acc.1, acc.2 ++ [old_value])
      else (acc.1 ++ [old_value], acc.2))
    ([], [])
  let added := new.foldl
    (fun acc new_value =>
      if contains_ref old new_value then acc else acc ++ [new_value])
    []
  (ru.1, ru.2, added)

/-- Embeds `calc_ctm_matrix` (main.rs:316-324): row-major 3×3 saturation
matrix, `matrix[i] = (1 - sat)/3 + (if i % 4 == 0 then sat else 0)`. -/
def calc_ctm_matrix (sat : ℚ) : List ℚ :=
  let coeff := (1 - sat) / 3
  (List.range 9).map (fun i => coeff + if i % 4 == 0 then sat else 0)

/-- The coefficients `clear_ctm_matrix_for_display` passes (main.rs:326-328):
the 3×3 identity matrix. -/
def identity_ctm : List ℚ := [1, 0, 0, 0, 1, 0, 0, 0, 1]

/-- The hard-coded `const SATURATION: f64 = 3.3` of `main` (main.rs:444). -/
def hardcoded_sat : ℚ := 33 / 10

/-- One compositor-side command issued through the CTM control channel:
`set_ctm_for_output(display, 9 coefficients)` or `commit()`. -/
inductive CtmCmd where
  | set_ctm (display : Nat) (matrix : List ℚ)
  | commit
deriving DecidableEq, Repr

/-- Embeds the derivation of `desired_outputs_with_custom_ctm`
(main.rs:448-458): the focused window's occupancy list when its title is
present and contained in the `--title-match` filters, else the empty list
(`Option::filter` then `map_or(&[], ...)`). -/
def desired_outputs (title_match : List String) (s : AppState) : List Nat :=
  ((s.focused_top_level).filter
      (fun top_level => (top_level.title.map (fun t => title_match.contains t)).getD false)).elim
    [] (fun top_level => top_level.current_outputs)

/-- Embeds the body of the `Running` loop after `blocking_dispatch`
(main.rs:448-478), as a function from the post-batch state and the
previously applied output list to the emitted command sequence and the new
previously-applied list. `sat_level` is the configured `--sat-level` value
(`args.sat_level`); note that the loop body does not use it — it feeds the
hard-coded `SATURATION` constant to `set_sat_ctm_for_display`
(main.rs:468). -/
def loop_iteration (sat_level : ℚ) (title_match : List String) (s : AppState)
    (outputs_with_custom_ctm : List Nat) : List CtmCmd × List Nat :=
  let _ := sat_level
  let desired := desired_outputs title_match s
  let d := diff_lists outputs_with_custom_ctm desired
  let removed := d.1
  let unchanged := d.2.1
  let added := d.2.2
  let cmds :=
    removed.map (fun o => CtmCmd.set_ctm o identity_ctm)
      ++ added.map (fun o => CtmCmd.set_ctm o (calc_ctm_matrix hardcoded_sat))
      ++ (if !removed.isEmpty || !added.isEmpty then [CtmCmd.commit] else [])
  let new_prev :=
    if !removed.isEmpty || !added.isEmpty then unchanged ++ added
    else outputs_with_custom_ctm
  (cmds, new_prev)

/-- The handles currently registered in the window registry. -/
def AppState.handles (s : AppState) : List Nat :=
  s.top_levels.map (fun w => w.handle)

/-- The focus tracker only ever refers to a window that is present in the
window registry. -/
def focus_valid (s : AppState) : Prop :=
  ∀ h, s.focused_top_level_object_id = some h → h ∈ s.handles

/-- Every window's occupancy list mentions each display at most once. -/
def outputs_nodup (s : AppState) : Prop :=
  ∀ w ∈ s.top_levels, w.current_outputs.Nodup

/-- The `current()` query of the focus tracker paired with the state after
the query. `AppState::focused_top_level` takes `&self` (an immutable
borrow), so the post-query state is necessarily the pre-query state. -/
def focused_top_level_query (s : AppState) : Option TopLevelInfo × AppState :=
  (s.focused_top_level, s)

-- Lemmas and theorems.

lemma contains_ref_eq [DecidableEq α] (l : List α) (a : α) :
    contains_ref l a = decide (a ∈ l) := by
  induction l with
  | nil => simp [contains_ref]
  | cons e rest ih =>
      by_cases h : e = a
      · simp [contains_ref, h]
      · simp [contains_ref, h, ih]
        intro h'
        exact absurd h'.symm h

lemma diff_lists_foldl_ru [DecidableEq α] (new : List α) :
    ∀ (old r u : List α),
      old.foldl
        (fun acc old_value =>
          if contains_ref new old_value then (acc.1, acc.2 ++ [old_value])
          else (acc.1 ++ [old_value], acc.2))
        (r, u)
      = (r ++ old.filter (fun o => !contains_ref new o),
         u ++ old.filter (fun o => contains_ref new o)) := by
  intro old
  induction old with
  | nil => intro r u; simp
  | cons o rest ih =>
      intro r u
      by_cases h : contains_ref new o = true
      · simp [List.foldl_cons, h, ih]
      · simp [List.foldl_cons, h, ih]

lemma diff_lists_foldl_added [DecidableEq α] (old : List α) :
    ∀ (new acc : List α),
      new.foldl
        (fun acc new_value =>
          if contains_ref old new_value then acc else acc ++ [new_value])
        acc
      = acc ++ new.filter (fun n => !contains_ref old n) := by
  intro new
  induction new with
  | nil => intro acc; simp
  | cons n rest ih =>
      intro acc
      by_cases h : contains_ref old n = true
      · simp [List.foldl_cons, h, ih]
      · simp [List.foldl_cons, h, ih]

/-- Closed form of `diff_lists`: the three partitions are filters of the two
inputs. -/
lemma diff_lists_eq [DecidableEq α] (old new : List α) :
    diff_lists old new
      = (old.filter (fun o => !contains_ref new o),
         old.filter (fun o => contains_ref new o),
         new.filter (fun n => !contains_ref old n)) := by
  unfold diff_lists
  rw [diff_lists_foldl_ru, diff_lists_foldl_added]
  simp

lemma diff_lists_removed [DecidableEq α] (old new : List α) :
    (diff_lists old new).1 = old.filter (fun o => decide (o ∉ new)) := by
  rw [diff_lists_eq]
  refine List.filter_congr ?_
  intro o _
  simp [contains_ref_eq]

lemma diff_lists_unchanged [DecidableEq α] (old new : List α) :
    (diff_lists old new).2.1 = old.filter (fun o => decide (o ∈ new)) := by
  rw [diff_lists_eq]
  refine List.filter_congr ?_
  intro o _
  simp [contains_ref_eq]

lemma diff_lists_added [DecidableEq α] (old new : List α) :
    (diff_lists old new).2.2 = new.filter (fun n => decide (n ∉ old)) := by
  rw [diff_lists_eq]
  refine List.filter_congr ?_
  intro n _
  simp [contains_ref_eq]

lemma position_of_eq_none (p : α → Bool) (l : List α) (h : ∀ a ∈ l, ¬ p a = true) :
    position_of p l = none := by
  induction l with
  | nil => rfl
  | cons a as ih =>
      have ha : ¬ p a = true := h a (List.mem_cons_self a as)
      simp [position_of, ha]
      exact ih (fun b hb => h b (List.mem_cons_of_mem a hb))

lemma position_of_isSome_iff (p : α → Bool) (l : List α) :
    (position_of p l).isSome ↔ ∃ a ∈ l, p a = true := by
  induction l with
  | nil => simp [position_of]
  | cons a as ih =>
      by_cases ha : p a = true
      · simp [position_of, ha]
      · simp [position_of, ha, ih]

lemma position_of_some (p : α → Bool) :
    ∀ (l : List α) (i : Nat), position_of p l = some i →
      ∃ a, l[i]? = some a ∧ p a = true := by
  intro l
  induction l with
  | nil => intro i h; simp [position_of] at h
  | cons a as ih =>
      intro i h
      by_cases ha : p a = true
      · simp [position_of, ha] at h
        subst h
        exact ⟨a, by simp, ha⟩
      · simp [position_of, ha] at h
        obtain ⟨j, hj, hij⟩ := h
        subst hij
        obtain ⟨b, hb, hpb⟩ := ih j hj
        exact ⟨b, by simpa using hb, hpb⟩

lemma remove_at_sublist : ∀ (l : List α) (i : Nat), List.Sublist (remove_at l i) l := by
  intro l
  induction l with
  | nil => intro i; simp [remove_at]
  | cons a as ih =>
      intro i
      cases i with
      | zero => exact (List.sublist_cons_self a as)
      | succ n => exact (ih n).cons₂ a

lemma mem_map_remove_at (g : α → β) (b : β) :
    ∀ (l : List α) (i : Nat), b ∈ l.map g → (∀ w, l[i]? = some w → ¬ g w = b) →
      b ∈ (remove_at l i).map g := by
  intro l
  induction l with
  | nil => intro i hb _; simp at hb
  | cons a as ih =>
      intro i hb hne
      cases i with
      | zero =>
          rcases List.mem_map.mp hb with ⟨w, hw, hgw⟩
          rcases List.mem_cons.mp hw with rfl | hw'
          · exact absurd hgw (hne w (by simp))
          · exact List.mem_map.mpr ⟨w, by simpa [remove_at] using hw', hgw⟩
      | succ n =>
          rcases List.mem_map.mp hb with ⟨w, hw, hgw⟩
          rcases List.mem_cons.mp hw with rfl | hw'
          · simp [remove_at, hgw]
          · have : b ∈ (remove_at as n).map g :=
              ih n (List.mem_map.mpr ⟨w, hw', hgw⟩) (fun v hv => hne v (by simpa using hv))
            simp [remove_at]
            rcases List.mem_map.mp this with ⟨v, hv, hgv⟩
            exact Or.inr ⟨v, hv, hgv⟩

lemma modify_at_map (g : α → β) (f : α → α) (hf : ∀ a, g (f a) = g a) :
    ∀ (l : List α) (i : Nat), (modify_at f l i).map g = l.map g := by
  intro l
  induction l with
  | nil => intro i; rfl
  | cons a as ih =>
      intro i
      cases i with
      | zero => simp [modify_at, hf]
      | succ n => simp [modify_at, ih]

lemma mem_modify_at (f : α → α) :
    ∀ (l : List α) (i : Nat) (w : α), w ∈ modify_at f l i →
      w ∈ l ∨ ∃ v ∈ l, w = f v := by
  intro l
  induction l with
  | nil => intro i w hw; simp [modify_at] at hw
  | cons a as ih =>
      intro i w hw
      cases i with
      | zero =>
          rcases List.mem_cons.mp hw with rfl | hw'
          · exact Or.inr ⟨a, by simp, rfl⟩
          · exact Or.inl (List.mem_cons_of_mem a hw')
      | succ n =>
          rcases List.mem_cons.mp hw with rfl | hw'
          · exact Or.inl (List.mem_cons_self _ _)
          · rcases ih n w hw' with h | ⟨v, hv, hfv⟩
            · exact Or.inl (List.mem_cons_of_mem a h)
            · exact Or.inr ⟨v, List.mem_cons_of_mem a hv, hfv⟩

lemma index_of_isSome_iff (s : AppState) (h : Nat) :
    (s.index_of_top_level_for_object_id h).isSome ↔ h ∈ s.handles := by
  unfold AppState.index_of_top_level_for_object_id AppState.handles
  rw [position_of_isSome_iff]
  constructor
  · rintro ⟨w, hw, hwp⟩
    exact List.mem_map.mpr ⟨w, hw, by simpa using hwp⟩
  · rintro hmem
    rcases List.mem_map.mp hmem with ⟨w, hw, hwh⟩
    exact ⟨w, hw, by simpa using hwh⟩

lemma get_or_create_focused (s : AppState) (h : Nat) :
    (s.get_or_create_top_level h).focused_top_level_object_id
      = s.focused_top_level_object_id := by
  unfold AppState.get_or_create_top_level
  by_cases hc : (s.index_of_top_level_for_object_id h).isSome <;> simp [hc]

lemma get_or_create_handles (s : AppState) (h : Nat) :
    (s.get_or_create_top_level h).handles = s.handles ∨
      (s.get_or_create_top_level h).handles = s.handles ++ [h] := by
  unfold AppState.get_or_create_top_level
  by_cases hc : (s.index_of_top_level_for_object_id h).isSome
  · exact Or.inl (by simp [hc])
  · refine Or.inr ?_
    simp [hc, AppState.handles, TopLevelInfo.new]

lemma get_or_create_handles_mono (s : AppState) (h h' : Nat)
    (hmem : h' ∈ s.handles) : h' ∈ (s.get_or_create_top_level h).handles := by
  rcases get_or_create_handles s h with heq | heq <;> rw [heq]
  · exact hmem
  · exact List.mem_append_left _ hmem

lemma get_or_create_handles_self (s : AppState) (h : Nat) :
    h ∈ (s.get_or_create_top_level h).handles := by
  by_cases hc : (s.index_of_top_level_for_object_id h).isSome
  · have : h ∈ s.handles := (index_of_isSome_iff s h).mp hc
    exact get_or_create_handles_mono s h h this
  · unfold AppState.get_or_create_top_level
    simp [hc, AppState.handles, TopLevelInfo.new]

lemma get_or_create_top_levels_mem (s : AppState) (h : Nat) (w : TopLevelInfo)
    (hw : w ∈ (s.get_or_create_top_level h).top_levels) :
    w ∈ s.top_levels ∨ w = TopLevelInfo.new h := by
  unfold AppState.get_or_create_top_level at hw
  by_cases hc : (s.index_of_top_level_for_object_id h).isSome
  · simp [hc] at hw
    exact Or.inl hw
  · simp [hc] at hw
    exact hw

lemma update_top_level_focused (s : AppState) (h : Nat) (f : TopLevelInfo → TopLevelInfo) :
    (s.update_top_level h f).focused_top_level_object_id
      = s.focused_top_level_object_id := by
  unfold AppState.update_top_level
  rcases hix : (s.get_or_create_top_level h).index_of_top_level_for_object_id h with _ | idx
  · simp [hix, get_or_create_focused]
  · simp [hix, get_or_create_focused s h]

lemma update_top_level_handles (s : AppState) (h : Nat)
    (f : TopLevelInfo → TopLevelInfo) (hf : ∀ w, (f w).handle = w.handle) :
    (s.update_top_level h f).handles = (s.get_or_create_top_level h).handles := by
  unfold AppState.update_top_level
  rcases hix : (s.get_or_create_top_level h).index_of_top_level_for_object_id h with _ | idx
  · simp [hix]
  · simp only [hix]
    unfold AppState.handles
    exact modify_at_map (fun w => w.handle) f hf _ _

lemma update_top_level_mem (s : AppState) (h : Nat) (f : TopLevelInfo → TopLevelInfo)
    (w : TopLevelInfo) (hw : w ∈ (s.update_top_level h f).top_levels) :
    w ∈ (s.get_or_create_top_level h).top_levels ∨
      ∃ v ∈ (s.get_or_create_top_level h).top_levels, w = f v := by
  unfold AppState.update_top_level at hw
  rcases hix : (s.get_or_create_top_level h).index_of_top_level_for_object_id h with _ | idx
  · simp only [hix] at hw
    exact Or.inl hw
  · simp only [hix] at hw
    exact mem_modify_at f _ idx w hw

lemma notify_closed_focused_of_eq (s : AppState) (h : Nat)
    (hfoc : s.focused_top_level_object_id = some h)
    (hmem : h ∈ s.handles) :
    (s.notify_top_level_closed h).focused_top_level_object_id = none := by
  unfold AppState.notify_top_level_closed
  have hsome : (s.index_of_top_level_for_object_id h).isSome :=
    (index_of_isSome_iff s h).mpr hmem
  rcases hix : s.index_of_top_level_for_object_id h with _ | idx
  · rw [hix] at hsome; simp at hsome
  · simp [hix, hfoc]

lemma notify_closed_focused_of_ne (s : AppState) (h : Nat)
    (hne : s.focused_top_level_object_id ≠ some h) :
    (s.notify_top_level_closed h).focused_top_level_object_id
      = s.focused_top_level_object_id := by
  unfold AppState.notify_top_level_closed
  rcases hix : s.index_of_top_level_for_object_id h with _ | idx
  · rfl
  · have : ¬ some h = s.focused_top_level_object_id := fun hc => hne hc.symm
    simp [hix, this]

lemma notify_closed_index_some (s : AppState) (h : Nat) (idx : Nat)
    (hix : s.index_of_top_level_for_object_id h = some idx) :
    ∃ w, s.top_levels[idx]? = some w ∧ w.handle = h := by
  obtain ⟨w, hw, hwp⟩ := position_of_some _ s.top_levels idx hix
  exact ⟨w, hw, by simpa using hwp⟩

lemma notify_closed_top_levels (s : AppState) (h : Nat) :
    (s.notify_top_level_closed h).top_levels = s.top_levels ∨
      ∃ idx, s.index_of_top_level_for_object_id h = some idx ∧
        (s.notify_top_level_closed h).top_levels = remove_at s.top_levels idx := by
  unfold AppState.notify_top_level_closed
  rcases hix : s.index_of_top_level_for_object_id h with _ | idx
  · exact Or.inl rfl
  · refine Or.inr ⟨idx, rfl, ?_⟩
    by_cases hc : some h = s.focused_top_level_object_id <;> simp [hc]

lemma focus_valid_step (s : AppState) (e : TLEvent) (hs : focus_valid s) :
    focus_valid (handle_event s e) := by
  cases e with
  | newToplevel h =>
      intro h₂ hfoc
      rw [show (handle_event s (TLEvent.newToplevel h)) = s.get_or_create_top_level h from rfl,
        get_or_create_focused] at hfoc
      exact get_or_create_handles_mono s h h₂ (hs h₂ hfoc)
  | title h t =>
      intro h₂ hfoc
      rw [show handle_event s (TLEvent.title h t)
          = s.update_top_level h (fun w => { w with title := some t }) from rfl] at hfoc ⊢
      rw [update_top_level_focused] at hfoc
      rw [update_top_level_handles s h (fun w => { w with title := some t }) (fun w => rfl)]
      exact get_or_create_handles_mono s h h₂ (hs h₂ hfoc)
  | outputEnter h o =>
      intro h₂ hfoc
      rw [show handle_event s (TLEvent.outputEnter h o)
          = s.update_top_level h (fun w => w.push_current_output o) from rfl] at hfoc ⊢
      rw [update_top_level_focused] at hfoc
      rw [update_top_level_handles s h _ ?hpres]
      case hpres =>
        intro w
        unfold TopLevelInfo.push_current_output
        by_cases hmem : o ∈ w.current_outputs <;> simp [hmem]
      exact get_or_create_handles_mono s h h₂ (hs h₂ hfoc)
  | outputLeave h o =>
      intro h₂ hfoc
      rw [show handle_event s (TLEvent.outputLeave h o)
          = s.update_top_level h (fun w => w.pop_current_output o) from rfl] at hfoc ⊢
      rw [update_top_level_focused] at hfoc
      rw [update_top_level_handles s h _ ?hpres]
      case hpres =>
        intro w
        unfold TopLevelInfo.pop_current_output
        rcases hix : position_of (fun e => e = o) w.current_outputs with _ | idx <;> simp [hix]
      exact get_or_create_handles_mono s h h₂ (hs h₂ hfoc)
  | state h focused =>
      intro h₂ hfoc
      rw [show handle_event s (TLEvent.state h focused)
          = (s.get_or_create_top_level h).notify_top_level_focus_changed h focused from rfl]
        at hfoc ⊢
      unfold AppState.notify_top_level_focus_changed at hfoc ⊢
      cases focused with
      | true =>
          simp at hfoc
          subst hfoc
          exact get_or_create_handles_self s h
      | false =>
          by_cases hc : (s.get_or_create_top_level h).focused_top_level_object_id = some h
          · simp [hc] at hfoc
          · simp only [Bool.false_eq_true, if_false, hc, if_neg hc] at hfoc
            simp only [Bool.false_eq_true, if_false, if_neg hc]
            rw [get_or_create_focused] at hfoc
            exact get_or_create_handles_mono s h h₂ (hs h₂ hfoc)
  | closed h =>
      intro h₂ hfoc
      rw [show handle_event s (TLEvent.closed h)
          = (s.get_or_create_top_level h).notify_top_level_closed h from rfl] at hfoc ⊢
      set s' := s.get_or_create_top_level h with hs'
      have hvalid' : focus_valid s' := by
        intro h₃ hfoc₃
        rw [hs', get_or_create_focused] at hfoc₃
        exact get_or_create_handles_mono s h h₃ (hs h₃ hfoc₃)
      by_cases hfeq : s'.focused_top_level_object_id = some h
      · have := notify_closed_focused_of_eq s' h hfeq (get_or_create_handles_self s h)
        rw [this] at hfoc
        exact absurd hfoc (by simp)
      · have hfocus := notify_closed_focused_of_ne s' h hfeq
        rw [hfocus] at hfoc
        have hm : h₂ ∈ s'.handles := hvalid' h₂ hfoc
        have hne2 : h₂ ≠ h := by
          intro hcc
          subst hcc
          exact hfeq hfoc
        rcases notify_closed_top_levels s' h with htl | ⟨idx, hix, htl⟩
        · unfold AppState.handles
          rw [htl]
          exact hm
        · unfold AppState.handles at hm ⊢
          rw [htl]
          obtain ⟨w, hwix, hwh⟩ := notify_closed_index_some s' h idx hix
          refine mem_map_remove_at (fun w => w.handle) h₂ s'.top_levels idx hm ?_
          intro v hv hgv
          rw [hwix] at hv
          injection hv with hv'
          subst hv'
          exact hne2 (hgv.symm.trans hwh)

lemma push_current_output_nodup (w : TopLevelInfo) (o : Nat)
    (hw : w.current_outputs.Nodup) :
    (w.push_current_output o).current_outputs.Nodup := by
  unfold TopLevelInfo.push_current_output
  by_cases hmem : o ∈ w.current_outputs
  · simpa [hmem] using hw
  · simp [hmem, List.nodup_append, hw]

lemma pop_current_output_nodup (w : TopLevelInfo) (o : Nat)
    (hw : w.current_outputs.Nodup) :
    (w.pop_current_output o).current_outputs.Nodup := by
  unfold TopLevelInfo.pop_current_output
  rcases hix : position_of (fun e => e = o) w.current_outputs with _ | idx
  · simpa [hix] using hw
  · simp only [hix]
    exact hw.sublist (remove_at_sublist w.current_outputs idx)

lemma outputs_nodup_get_or_create (s : AppState) (h : Nat)
    (hs : outputs_nodup s) : outputs_nodup (s.get_or_create_top_level h) := by
  intro w hw
  rcases get_or_create_top_levels_mem s h w hw with hmem | hnew
  · exact hs w hmem
  · subst hnew
    simp [TopLevelInfo.new]

lemma outputs_nodup_step (s : AppState) (e : TLEvent) (hs : outputs_nodup s) :
    outputs_nodup (handle_event s e) := by
  cases e with
  | newToplevel h => exact outputs_nodup_get_or_create s h hs
  | title h t =>
      intro w hw
      rcases update_top_level_mem s h _ w hw with hmem | ⟨v, hv, hfv⟩
      · exact outputs_nodup_get_or_create s h hs w hmem
      · subst hfv
        exact outputs_nodup_get_or_create s h hs v hv
  | outputEnter h o =>
      intro w hw
      rcases update_top_level_mem s h _ w hw with hmem | ⟨v, hv, hfv⟩
      · exact outputs_nodup_get_or_create s h hs w hmem
      · subst hfv
        exact push_current_output_nodup v o (outputs_nodup_get_or_create s h hs v hv)
  | outputLeave h o =>
      intro w hw
      rcases update_top_level_mem s h _ w hw with hmem | ⟨v, hv, hfv⟩
      · exact outputs_nodup_get_or_create s h hs w hmem
      · subst hfv
        exact pop_current_output_nodup v o (outputs_nodup_get_or_create s h hs v hv)
  | state h focused =>
      intro w hw
      have htl : (handle_event s (TLEvent.state h focused)).top_levels
          = (s.get_or_create_top_level h).top_levels := by
        show ((s.get_or_create_top_level h).notify_top_level_focus_changed h focused).top_levels
          = (s.get_or_create_top_level h).top_levels
        unfold AppState.notify_top_level_focus_changed
        cases focused with
        | true => simp
        | false =>
            by_cases hc : (s.get_or_create_top_level h).focused_top_level_object_id = some h
              <;> simp [hc]
      rw [htl] at hw
      exact outputs_nodup_get_or_create s h hs w hw
  | closed h =>
      intro w hw
      have hgo : outputs_nodup (s.get_or_create_top_level h) :=
        outputs_nodup_get_or_create s h hs
      rcases notify_closed_top_levels (s.get_or_create_top_level h) h with htl | ⟨idx, _, htl⟩
      · rw [show (handle_event s (TLEvent.closed h))
            = (s.get_or_create_top_level h).notify_top_level_closed h from rfl, htl] at hw
        exact hgo w hw
      · rw [show (handle_event s (TLEvent.closed h))
            = (s.get_or_create_top_level h).notify_top_level_closed h from rfl, htl] at hw
        exact hgo w ((remove_at_sublist _ idx).subset hw)

lemma outputs_nodup_run (evs : List TLEvent) :
    ∀ (s : AppState), outputs_nodup s → outputs_nodup (evs.foldl handle_event s) := by
  induction evs with
  | nil => intro s hs; exact hs
  | cons e rest ih =>
      intro s hs
      exact ih (handle_event s e) (outputs_nodup_step s e hs)

lemma focus_valid_run (evs : List TLEvent) :
    ∀ (s : AppState), focus_valid s → focus_valid (evs.foldl handle_event s) := by
  induction evs with
  | nil => intro s hs; exact hs
  | cons e rest ih =>
      intro s hs
      exact ih (handle_event s e) (focus_valid_step s e hs)

/-- C2: `diff_lists previous desired` returns exactly `removed` = the
elements of `previous` not present (by identity) in `desired` in
`previous`'s order, `unchanged` = the elements of `previous` present in
`desired` in `previous`'s order, and `added` = the elements of `desired`
not present in `previous` in `desired`'s order (each partition is the
corresponding order-preserving filter). The embedding is a pure function —
the Rust source takes shared borrows (`&[E1]`, `&[E2]`) and allocates fresh
vectors, so neither input can be mutated. -/
theorem claim_C2_diff_partitions (previous desired : List Nat) :
    (diff_lists previous desired).1
        = previous.filter (fun o => decide (o ∉ desired)) ∧
    (diff_lists previous desired).2.1
        = previous.filter (fun o => decide (o ∈ desired)) ∧
    (diff_lists previous desired).2.2
        = desired.filter (fun n => decide (n ∉ previous)) :=
  ⟨diff_lists_removed previous desired, diff_lists_unchanged previous desired,
    diff_lists_added previous desired⟩

/-- C9: `diff_lists P P` yields an empty `removed` partition, an empty
`added` partition, and `unchanged = P` with `P`'s order preserved. -/
theorem claim_C9_diff_idempotent (P : List Nat) :
    diff_lists P P = ([], P, []) := by
  rw [diff_lists_eq]
  refine Prod.ext ?_ (Prod.ext ?_ ?_)
  · simp [contains_ref_eq]
  · simp only []
    rw [List.filter_eq_self]
    intro a ha
    simp [contains_ref_eq, ha]
  · simp [contains_ref_eq]

/-- C4: the desired transform set is the focused window's occupancy list
exactly when a window is focused, its title is present, and the title is an
exact, case-sensitive member of the filter set; with no focus, an absent
title, or a non-matching title, the desired set is empty (an absent title
yields the empty set, not an error). -/
theorem claim_C4_desired_set (title_match : List String) (s : AppState) :
    (s.focused_top_level = none → desired_outputs title_match s = []) ∧
    (∀ tl, s.focused_top_level = some tl →
      (tl.title = none → desired_outputs title_match s = []) ∧
      (∀ t, tl.title = some t → t ∉ title_match →
        desired_outputs title_match s = []) ∧
      (∀ t, tl.title = some t → t ∈ title_match →
        desired_outputs title_match s = tl.current_outputs)) := by
  refine ⟨?_, ?_⟩
  · intro h
    simp [desired_outputs, h, Option.filter]
  · intro tl h
    refine ⟨?_, ?_, ?_⟩
    · intro ht
      simp [desired_outputs, h, ht, Option.filter]
    · intro t ht hnot
      simp [desired_outputs, h, ht, Option.filter, hnot]
    · intro t ht hmem
      simp [desired_outputs, h, ht, Option.filter, hmem]

/-- C4 witness: a focused window with matching title "Terminal" on displays
5 and 7 yields desired set [5, 7]. -/
theorem claim_C4_desired_set_witness :
    desired_outputs ["Terminal"] ⟨[⟨1, some "Terminal", [5, 7]⟩], some 1⟩ = [5, 7] :=
  ((claim_C4_desired_set ["Terminal"] ⟨[⟨1, some "Terminal", [5, 7]⟩], some 1⟩).2
      ⟨1, some "Terminal", [5, 7]⟩ rfl).2.2 "Terminal" rfl (by decide)

/-- C5: an activation notification sets the tracked identity to the handle
unconditionally; a deactivation clears it exactly when it currently equals
the handle, so a stale deactivation for a non-focused handle is a no-op. -/
theorem claim_C5_focus_notifications (s : AppState) (h : Nat) :
    (s.notify_top_level_focus_changed h true).focused_top_level_object_id = some h ∧
    (s.focused_top_level_object_id = some h →
      (s.notify_top_level_focus_changed h false).focused_top_level_object_id = none) ∧
    (s.focused_top_level_object_id ≠ some h →
      s.notify_top_level_focus_changed h false = s) := by
  refine ⟨?_, ?_, ?_⟩
  · simp [AppState.notify_top_level_focus_changed]
  · intro hfoc
    simp [AppState.notify_top_level_focus_changed, hfoc]
  · intro hne
    simp [AppState.notify_top_level_focus_changed, hne]

/-- C5 witness: activating handle 5 overwrites focus 3; a stale deactivation
of handle 5 while 3 is focused changes nothing. -/
theorem claim_C5_focus_notifications_witness :
    (AppState.notify_top_level_focus_changed ⟨[], some 3⟩ 5 true).focused_top_level_object_id
        = some 5 ∧
    AppState.notify_top_level_focus_changed ⟨[], some 3⟩ 5 false = ⟨[], some 3⟩ :=
  ⟨(claim_C5_focus_notifications ⟨[], some 3⟩ 5).1,
    (claim_C5_focus_notifications ⟨[], some 3⟩ 5).2.2 (by decide)⟩

/-- C6: processing a window-closed notification for the focused window
clears the focus tracker; for a non-focused window it leaves the tracker
unchanged; and in every state reachable from the fresh state the tracker
never refers to a window absent from the registry. -/
theorem claim_C6_closed_clears_focus :
    (∀ (s : AppState) (h : Nat),
      (s.focused_top_level_object_id = some h →
        (handle_event s (TLEvent.closed h)).focused_top_level_object_id = none) ∧
      (s.focused_top_level_object_id ≠ some h →
        (handle_event s (TLEvent.closed h)).focused_top_level_object_id
          = s.focused_top_level_object_id)) ∧
    (∀ evs : List TLEvent, focus_valid (run_events evs)) := by
  constructor
  · intro s h
    constructor
    · intro hfoc
      have hfoc' : (s.get_or_create_top_level h).focused_top_level_object_id = some h := by
        rw [get_or_create_focused]; exact hfoc
      show ((s.get_or_create_top_level h).notify_top_level_closed h).focused_top_level_object_id
        = none
      exact notify_closed_focused_of_eq _ h hfoc' (get_or_create_handles_self s h)
    · intro hne
      have hne' : (s.get_or_create_top_level h).focused_top_level_object_id ≠ some h := by
        rw [get_or_create_focused]; exact hne
      show ((s.get_or_create_top_level h).notify_top_level_closed h).focused_top_level_object_id
        = s.focused_top_level_object_id
      rw [notify_closed_focused_of_ne _ h hne', get_or_create_focused]
  · intro evs
    exact focus_valid_run evs initial_app_state (by intro h hfoc; simp [initial_app_state] at hfoc)

/-- C6 witness: closing focused window 1 clears the tracker; closing
non-focused window 1 while 2 is focused keeps focus 2; and after an
activation event the tracked handle is registered. -/
theorem claim_C6_closed_clears_focus_witness :
    (handle_event ⟨[⟨1, none, []⟩, ⟨2, none, []⟩], some 1⟩
        (TLEvent.closed 1)).focused_top_level_object_id = none ∧
    (handle_event ⟨[⟨1, none, []⟩, ⟨2, none, []⟩], some 2⟩
        (TLEvent.closed 1)).focused_top_level_object_id = some 2 ∧
    3 ∈ (run_events [TLEvent.state 3 true]).handles :=
  ⟨(claim_C6_closed_clears_focus.1 ⟨[⟨1, none, []⟩, ⟨2, none, []⟩], some 1⟩ 1).1 rfl,
    ((claim_C6_closed_clears_focus.1 ⟨[⟨1, none, []⟩, ⟨2, none, []⟩], some 2⟩ 1).2
        (by decide)).trans rfl,
    claim_C6_closed_clears_focus.2 [TLEvent.state 3 true] 3 rfl⟩

/-- C7: for every sequence of notifications applied to the fresh registry
and tracker (title, occupancy and activation notifications included), every
window's occupancy list holds each display at most once; since every prefix
of a sequence is itself a sequence, the invariant holds after every step. -/
theorem claim_C7_occupancy_nodup (evs : List TLEvent) (w : TopLevelInfo)
    (hw : w ∈ (run_events evs).top_levels) : w.current_outputs.Nodup :=
  outputs_nodup_run evs initial_app_state
    (by intro v hv; simp [initial_app_state] at hv) w hw

/-- C7 witness: after two enter notifications for display 10 and one for
display 11, window 1 occupies [10, 11] with no duplicate. -/
theorem claim_C7_occupancy_nodup_witness :
    (⟨1, none, [10, 11]⟩ : TopLevelInfo)
        ∈ (run_events [TLEvent.outputEnter 1 10, TLEvent.outputEnter 1 10,
            TLEvent.outputEnter 1 11]).top_levels ∧
    ([10, 11] : List Nat).Nodup :=
  ⟨by decide,
    claim_C7_occupancy_nodup
      [TLEvent.outputEnter 1 10, TLEvent.outputEnter 1 10, TLEvent.outputEnter 1 11]
      ⟨1, none, [10, 11]⟩ (by decide)⟩

lemma index_of_eq_none_of_stale (s : AppState) (h : Nat)
    (hstale : ∀ w ∈ s.top_levels, w.handle ≠ h) :
    s.index_of_top_level_for_object_id h = none := by
  unfold AppState.index_of_top_level_for_object_id
  refine position_of_eq_none _ _ ?_
  intro w hw
  simpa using hstale w hw

/-- C8 counterexample: in the state with an empty registry and tracked
identity 7 (a stale identity), the `current()` query returns absent but the
tracked identity after the query is still 7, not cleared — the Rust method
`AppState::focused_top_level` takes `&self` and performs no mutation, so the
claimed self-clearing side effect does not happen. -/
theorem claim_C8_counterexample :
    ((⟨[], some 7⟩ : AppState).focused_top_level_object_id = some 7) ∧
    (∀ w ∈ (⟨[], some 7⟩ : AppState).top_levels, w.handle ≠ 7) ∧
    (focused_top_level_query ⟨[], some 7⟩).1 = none ∧
    ¬ (focused_top_level_query ⟨[], some 7⟩).2.focused_top_level_object_id = none := by
  refine ⟨rfl, ?_, rfl, by decide⟩
  intro w hw
  simp at hw

/-- C8 amended: whenever the focus tracker holds an identity for which no
window exists in the registry, the `current()` query returns absent; the
query is read-only, so the state (including the stale tracked identity) is
left unchanged rather than self-cleared. -/
theorem claim_C8_stale_query (s : AppState) (h : Nat)
    (hfoc : s.focused_top_level_object_id = some h)
    (hstale : ∀ w ∈ s.top_levels, w.handle ≠ h) :
    (focused_top_level_query s).1 = none ∧ (focused_top_level_query s).2 = s := by
  refine ⟨?_, rfl⟩
  show s.focused_top_level = none
  unfold AppState.focused_top_level
  rw [hfoc]
  simp [index_of_eq_none_of_stale s h hstale]

/-- C8 witness: the stale state with tracked identity 7 and empty registry. -/
theorem claim_C8_stale_query_witness :
    (focused_top_level_query ⟨[], some 7⟩).1 = none ∧
    (focused_top_level_query ⟨[], some 7⟩).2 = ⟨[], some 7⟩ :=
  claim_C8_stale_query ⟨[], some 7⟩ 7 rfl (by intro w hw; simp at hw)

/-- C10: an iteration of the `Running` loop whose diff yields empty
`removed` and empty `added` emits no per-display transform command, issues
no commit, and leaves the previously-applied list exactly as it was, in
content and order. -/
theorem claim_C10_quiescent_iteration (sat_level : ℚ) (title_match : List String)
    (s : AppState) (prev : List Nat)
    (h1 : (diff_lists prev (desired_outputs title_match s)).1 = [])
    (h2 : (diff_lists prev (desired_outputs title_match s)).2.2 = []) :
    loop_iteration sat_level title_match s prev = ([], prev) := by
  simp [loop_iteration, h1, h2]

/-- C10 witness: the fresh state with nothing applied yields an empty diff,
no commands and an unchanged previously-applied list. -/
theorem claim_C10_quiescent_iteration_witness :
    loop_iteration 1 ["Terminal"] initial_app_state [] = ([], []) :=
  claim_C10_quiescent_iteration 1 ["Terminal"] initial_app_state [] rfl rfl

/-- C1 (code bug): with the configured saturation 1.0 (whose derived matrix
is the identity), the transform command emitted for the `added` display 5 is
the matrix derived from the hard-coded constant 3.3 (`SATURATION`,
main.rs:444), which differs from the matrix derived from the configured
value — `main` parses and validates `--sat-level` (main.rs:380-400) but the
loop body never uses it. -/
theorem claim_C1_saturation_ignored :
    (loop_iteration 1 ["Terminal"] ⟨[⟨1, some "Terminal", [5]⟩], some 1⟩ []).1
      = [CtmCmd.set_ctm 5 (calc_ctm_matrix hardcoded_sat), CtmCmd.commit] ∧
    calc_ctm_matrix 1 = identity_ctm ∧
    calc_ctm_matrix hardcoded_sat ≠ calc_ctm_matrix 1 ∧
    CtmCmd.set_ctm 5 (calc_ctm_matrix 1)
      ∉ (loop_iteration 1 ["Terminal"] ⟨[⟨1, some "Terminal", [5]⟩], some 1⟩ []).1 := by
  have h1 : (loop_iteration 1 ["Terminal"] ⟨[⟨1, some "Terminal", [5]⟩], some 1⟩ []).1
      = [CtmCmd.set_ctm 5 (calc_ctm_matrix hardcoded_sat), CtmCmd.commit] := by
    simp [loop_iteration, desired_outputs, AppState.focused_top_level,
      AppState.index_of_top_level_for_object_id, position_of, diff_lists, contains_ref,
      Option.filter, List.foldl]
  have h2 : calc_ctm_matrix 1 = identity_ctm := by
    simp [calc_ctm_matrix, identity_ctm, List.range_succ]
  have h3 : calc_ctm_matrix hardcoded_sat ≠ calc_ctm_matrix 1 := by
    simp [calc_ctm_matrix, hardcoded_sat, List.range_succ]
    norm_num
  refine ⟨h1, h2, h3, ?_⟩
  rw [h1]
  simp only [List.mem_cons, List.mem_singleton, CtmCmd.set_ctm.injEq]
  rintro (⟨-, heq⟩ | hcommit | hfalse)
  · exact h3 heq.symm
  · exact CtmCmd.noConfusion hcommit
  · simp at hfalse

lemma mem_diff_removed {α : Type} [DecidableEq α] {old new : List α} {o : α}
    (h : o ∈ (diff_lists old new).1) : o ∈ old ∧ o ∉ new := by
  rw [diff_lists_removed] at h
  have := List.mem_filter.mp h
  exact ⟨this.1, of_decide_eq_true this.2⟩

lemma mem_diff_unchanged {α : Type} [DecidableEq α] {old new : List α} {o : α}
    (h : o ∈ (diff_lists old new).2.1) : o ∈ old ∧ o ∈ new := by
  rw [diff_lists_unchanged] at h
  have := List.mem_filter.mp h
  exact ⟨this.1, of_decide_eq_true this.2⟩

lemma mem_diff_added {α : Type} [DecidableEq α] {old new : List α} {o : α}
    (h : o ∈ (diff_lists old new).2.2) : o ∈ new ∧ o ∉ old := by
  rw [diff_lists_added] at h
  have := List.mem_filter.mp h
  exact ⟨this.1, of_decide_eq_true this.2⟩

lemma loop_iteration_fst (sat_level : ℚ) (title_match : List String) (s : AppState)
    (prev : List Nat) :
    (loop_iteration sat_level title_match s prev).1
      = (diff_lists prev (desired_outputs title_match s)).1.map
            (fun o => CtmCmd.set_ctm o identity_ctm)
          ++ (diff_lists prev (desired_outputs title_match s)).2.2.map
            (fun o => CtmCmd.set_ctm o (calc_ctm_matrix hardcoded_sat))
          ++ (if !(diff_lists prev (desired_outputs title_match s)).1.isEmpty
                || !(diff_lists prev (desired_outputs title_match s)).2.2.isEmpty
              then [CtmCmd.commit] else []) := rfl

lemma loop_iteration_snd (sat_level : ℚ) (title_match : List String) (s : AppState)
    (prev : List Nat) :
    (loop_iteration sat_level title_match s prev).2
      = (if !(diff_lists prev (desired_outputs title_match s)).1.isEmpty
            || !(diff_lists prev (desired_outputs title_match s)).2.2.isEmpty
          then (diff_lists prev (desired_outputs title_match s)).2.1
              ++ (diff_lists prev (desired_outputs title_match s)).2.2
          else prev) := rfl

lemma loop_condition_iff (removed added : List Nat) :
    (!removed.isEmpty || !added.isEmpty) = true ↔ (removed ≠ [] ∨ added ≠ []) := by
  simp [List.isEmpty_iff]

/-- C3: in every iteration of the `Running` loop, a transform command with
the identity matrix is emitted for each `removed` display, a transform
command is emitted for each `added` display, no command is ever emitted for
an `unchanged` display, a commit is issued if and only if `removed` or
`added` is non-empty, and exactly in that case the previously-applied list
is replaced by `unchanged ++ added` (otherwise it is retained). -/
theorem claim_C3_loop_behaviour (sat_level : ℚ) (title_match : List String)
    (s : AppState) (prev : List Nat) :
    (∀ o ∈ (diff_lists prev (desired_outputs title_match s)).1,
      CtmCmd.set_ctm o identity_ctm ∈ (loop_iteration sat_level title_match s prev).1) ∧
    (∀ o ∈ (diff_lists prev (desired_outputs title_match s)).2.2,
      CtmCmd.set_ctm o (calc_ctm_matrix hardcoded_sat)
        ∈ (loop_iteration sat_level title_match s prev).1) ∧
    (∀ o ∈ (diff_lists prev (desired_outputs title_match s)).2.1,
      ∀ m, CtmCmd.set_ctm o m ∉ (loop_iteration sat_level title_match s prev).1) ∧
    (CtmCmd.commit ∈ (loop_iteration sat_level title_match s prev).1 ↔
      ((diff_lists prev (desired_outputs title_match s)).1 ≠ [] ∨
        (diff_lists prev (desired_outputs title_match s)).2.2 ≠ [])) ∧
    (((diff_lists prev (desired_outputs title_match s)).1 ≠ [] ∨
        (diff_lists prev (desired_outputs title_match s)).2.2 ≠ []) →
      (loop_iteration sat_level title_match s prev).2
        = (diff_lists prev (desired_outputs title_match s)).2.1
            ++ (diff_lists prev (desired_outputs title_match s)).2.2) ∧
    (¬ ((diff_lists prev (desired_outputs title_match s)).1 ≠ [] ∨
        (diff_lists prev (desired_outputs title_match s)).2.2 ≠ []) →
      (loop_iteration sat_level title_match s prev).2 = prev) := by
  refine ⟨?_, ?_, ?_, ?_, ?_, ?_⟩
  · intro o ho
    rw [loop_iteration_fst]
    exact List.mem_append_left _ (List.mem_append_left _ (List.mem_map.mpr ⟨o, ho, rfl⟩))
  · intro o ho
    rw [loop_iteration_fst]
    exact List.mem_append_left _ (List.mem_append_right _ (List.mem_map.mpr ⟨o, ho, rfl⟩))
  · intro o ho m hm
    obtain ⟨hop, hod⟩ := mem_diff_unchanged ho
    rw [loop_iteration_fst] at hm
    rcases List.mem_append.mp hm with hm1 | hm2
    · rcases List.mem_append.mp hm1 with hr | ha
      · rcases List.mem_map.mp hr with ⟨a, ha', heq⟩
        have haeq : a = o := by
          injection heq
        subst haeq
        exact (mem_diff_removed ha').2 hod
      · rcases List.mem_map.mp ha with ⟨a, ha', heq⟩
        have haeq : a = o := by
          injection heq
        subst haeq
        exact (mem_diff_added ha').2 hop
    · by_cases hc : (!(diff_lists prev (desired_outputs title_match s)).1.isEmpty
          || !(diff_lists prev (desired_outputs title_match s)).2.2.isEmpty) = true
      · rw [if_pos hc] at hm2
        rcases List.mem_singleton.mp hm2 with heq
        exact CtmCmd.noConfusion heq
      · rw [if_neg hc] at hm2
        simp at hm2
  · rw [loop_iteration_fst]
    constructor
    · intro hmem
      rcases List.mem_append.mp hmem with hm1 | hm2
      · rcases List.mem_append.mp hm1 with hr | ha
        · rcases List.mem_map.mp hr with ⟨a, _, heq⟩
          exact CtmCmd.noConfusion heq
        · rcases List.mem_map.mp ha with ⟨a, _, heq⟩
          exact CtmCmd.noConfusion heq
      · by_cases hc : (!(diff_lists prev (desired_outputs title_match s)).1.isEmpty
            || !(diff_lists prev (desired_outputs title_match s)).2.2.isEmpty) = true
        · exact (loop_condition_iff _ _).mp hc
        · rw [if_neg hc] at hm2
          simp at hm2
    · intro hcond
      refine List.mem_append_right _ ?_
      rw [if_pos ((loop_condition_iff _ _).mpr hcond)]
      exact List.mem_singleton.mpr rfl
  · intro hcond
    rw [loop_iteration_snd, if_pos ((loop_condition_iff _ _).mpr hcond)]
  · intro hcond
    rw [loop_iteration_snd, if_neg]
    intro hc
    exact hcond ((loop_condition_iff _ _).mp hc)

/-- C3 witness: previously applied [2, 3], desired [1, 2] — display 3 gets
the identity matrix, display 1 gets the saturation matrix, display 2 gets no
command, a commit is issued, and the new previously-applied list is
`unchanged ++ added = [2] ++ [1]`. -/
theorem claim_C3_loop_behaviour_witness :
    CtmCmd.set_ctm 3 identity_ctm
      ∈ (loop_iteration 1 ["T"] ⟨[⟨1, some "T", [1, 2]⟩], some 1⟩ [2, 3]).1 ∧
    CtmCmd.set_ctm 1 (calc_ctm_matrix hardcoded_sat)
      ∈ (loop_iteration 1 ["T"] ⟨[⟨1, some "T", [1, 2]⟩], some 1⟩ [2, 3]).1 ∧
    CtmCmd.set_ctm 2 identity_ctm
      ∉ (loop_iteration 1 ["T"] ⟨[⟨1, some "T", [1, 2]⟩], some 1⟩ [2, 3]).1 ∧
    CtmCmd.commit ∈ (loop_iteration 1 ["T"] ⟨[⟨1, some "T", [1, 2]⟩], some 1⟩ [2, 3]).1 ∧
    (loop_iteration 1 ["T"] ⟨[⟨1, some "T", [1, 2]⟩], some 1⟩ [2, 3]).2
      = (diff_lists [2, 3] (desired_outputs ["T"] ⟨[⟨1, some "T", [1, 2]⟩], some 1⟩)).2.1
          ++ (diff_lists [2, 3] (desired_outputs ["T"] ⟨[⟨1, some "T", [1, 2]⟩], some 1⟩)).2.2 :=
  ⟨(claim_C3_loop_behaviour 1 ["T"] ⟨[⟨1, some "T", [1, 2]⟩], some 1⟩ [2, 3]).1 3 (by decide),
    (claim_C3_loop_behaviour 1 ["T"] ⟨[⟨1, some "T", [1, 2]⟩], some 1⟩ [2, 3]).2.1 1 (by decide),
    (claim_C3_loop_behaviour 1 ["T"] ⟨[⟨1, some "T", [1, 2]⟩], some 1⟩ [2, 3]).2.2.1 2
      (by decide) identity_ctm,
    ((claim_C3_loop_behaviour 1 ["T"] ⟨[⟨1, some "T", [1, 2]⟩], some 1⟩ [2, 3]).2.2.2.1).mpr
      (Or.inl (by decide)),
    (claim_C3_loop_behaviour 1 ["T"] ⟨[⟨1, some "T", [1, 2]⟩], some 1⟩ [2, 3]).2.2.2.2.1
      (Or.inl (by decide))⟩
